import Mathlib

/-!
Verification of the string-parameter list and string-builder core of
`src/strings_internal.h` (OpenTTD).

The C++ `StringParameters` class holds raw pointers `data : uint64*` and
`type : WChar*` into caller-owned arrays, a `parent : StringParameters*`
back-pointer, and `uint` fields `offset` (read cursor) and `num_param`
(window length).  We model the caller-owned arrays as an explicit heap and
a pointer as a base index into that heap; the parent back-pointer is
modelled by a flag `parentRef` (`parent != nullptr`) together with, at each
use site, the value of the referenced parent object.  `uint` fields are
Nat with an explicit `% 2^32` wherever C++ unsigned arithmetic can wrap.
A C++ `assert` that fails aborts the program; an operation guarded by an
assert is therefore modelled as returning `none` when the assert fires.
-/

/-- Caller-owned backing storage: the `uint64` value cells and the `WChar`
type cells that the raw pointers of `StringParameters` point into.
Each cell is a Nat (a `uint64` value is `< 2^64`, a `WChar` is `< 2^32`). -/
structure Heap where
  vals : List Nat
  typs : List Nat
deriving DecidableEq

/-- Shallow embedding of the C++ class `StringParameters`
(src/strings_internal.h lines 16-134).  `parentRef` models
`parent != nullptr`; `dataBase` and `typeBase` model the `data` and `type`
pointers as indices into `Heap.vals` / `Heap.typs` (`typeBase = none`
models `type == nullptr`). -/
structure StringParameters where
  parentRef : Bool
  dataBase : Nat
  typeBase : Option Nat
  offset : Nat
  num_param : Nat
deriving DecidableEq

/-- `uint` subtraction: C++ computes `a - b` in `uint`, wrapping mod `2^32`. -/
def uintSub (a b : Nat) : Nat :=
  (((a : Int) - (b : Int)) % (2 ^ 32 : Int)).toNat

/-- Root constructor `StringParameters(uint64 *data, uint num_param, WChar *type)`
(lines 27-33): no parent, cursor at 0. -/
def ofArrays (dataBase : Nat) (num_param : Nat) (typeBase : Option Nat) :
    StringParameters :=
  { parentRef := false, dataBase := dataBase, typeBase := typeBase,
    offset := 0, num_param := num_param }

/-- Fixed-size-array constructor `StringParameters(int64 (&data)[Tnum_param])`
(lines 36-45): reinterprets the signed array as the `uint64` data pointer,
sets `type` to `nullptr`, cursor at 0, length `Tnum_param`. -/
def ofInt64Array (dataBase : Nat) (num_param : Nat) : StringParameters :=
  { parentRef := false, dataBase := dataBase, typeBase := none,
    offset := 0, num_param := num_param }

/-- `GetDataLeft` (lines 97-100): `return this->num_param - this->offset;`,
computed in `uint`. -/
def GetDataLeft (sp : StringParameters) : Nat :=
  uintSub sp.num_param sp.offset

/-- Child-view constructor `StringParameters(StringParameters &parent, uint size)`
(lines 51-63).  It asserts `size <= parent.GetDataLeft()` (abort, modelled
as `none`), sets the child's data pointer to `parent.data + parent.offset`,
its cursor to 0, its length to `size`, its type pointer to `nullptr` when
the parent's is and to `parent.type + parent.offset` otherwise, and stores
`&parent`.  It assigns no field of the parent and touches no heap cell, so
on success the parent object is returned unchanged alongside the child. -/
def subView (parent : StringParameters) (size : Nat) :
    Option (StringParameters × StringParameters) :=
  if size ≤ GetDataLeft parent then
    some ({ parentRef := true,
            dataBase := parent.dataBase + parent.offset,
            typeBase := parent.typeBase.map (fun b => b + parent.offset),
            offset := 0,
            num_param := size }, parent)
  else
    none

/-- Destructor `~StringParameters()` (lines 65-70):
`if (this->parent != nullptr) this->parent->offset += this->num_param;`.
`origin` is the object the child's `parent` pointer refers to (the list it
was carved from); when `parentRef = false` there is no referenced object
and the destructor does nothing, so `origin` stands for any list the view
was derived from.  The `uint` addition wraps mod `2^32`. -/
def destructor (child : StringParameters) (origin : StringParameters) :
    StringParameters :=
  if child.parentRef then
    { origin with offset := (origin.offset + child.num_param) % 2 ^ 32 }
  else
    origin

/-- Reinterpret a `uint64` cell as a signed `int64`, as `GetInt64` returns
the slot as `int64`. -/
def toInt64 (u : Nat) : Int :=
  if u % 2 ^ 64 < 2 ^ 63 then (u % 2 ^ 64 : Int) else (u % 2 ^ 64 : Int) - 2 ^ 64

/-- Modelled from the spec: the body of `GetInt64` is only declared in
src/strings_internal.h (line 74), its definition is outside src/.  Per the
spec (§4.1): returns the value at `cursor` reinterpreted as a signed 64-bit
integer and advances `cursor` by one; fails (precondition violation, fatal
in debug builds) if `cursor >= length`.  `offset + 1` cannot wrap since
`offset < num_param < 2^32`. -/
def GetInt64 (h : Heap) (sp : StringParameters) :
    Option (Int × StringParameters) :=
  if sp.offset < sp.num_param then
    some (toInt64 (h.vals.getD (sp.dataBase + sp.offset) 0),
          { sp with offset := sp.offset + 1 })
  else
    none

/-- Narrow an `int64` value to `int32` as the C++ cast `(int32)` does:
wrap mod `2^32`, then reinterpret as signed. -/
def toInt32 (i : Int) : Int :=
  if i % 2 ^ 32 < 2 ^ 31 then i % 2 ^ 32 else i % 2 ^ 32 - 2 ^ 32

/-- `GetInt32` (lines 77-80): `return (int32)this->GetInt64();` — same
advancement and failure behaviour as `GetInt64`, result narrowed. -/
def GetInt32 (h : Heap) (sp : StringParameters) :
    Option (Int × StringParameters) :=
  (GetInt64 h sp).map (fun p => (toInt32 p.1, p.2))

/-- Iterate `GetInt32` the given number of times, failing as soon as one
call fails; returns the list state after the calls. -/
def GetInt32Calls (h : Heap) (sp : StringParameters) : Nat → Option StringParameters
  | 0 => some sp
  | n + 1 =>
    match GetInt32 h sp with
    | some p => GetInt32Calls h p.2 n
    | none => none

/-- `GetRemainingParameters` (lines 90-94): builds a fresh root-constructed
instance over `&data[offset]` with length `GetDataLeft()` and type pointer
`nullptr` when `type` is and `&type[offset]` otherwise. -/
def GetRemainingParameters (sp : StringParameters) : StringParameters :=
  ofArrays (sp.dataBase + sp.offset) (GetDataLeft sp)
    (sp.typeBase.map (fun b => b + sp.offset))

/-- `HasTypeInformation` (lines 110-113): `return this->type != nullptr;`. -/
def HasTypeInformation (sp : StringParameters) : Bool :=
  sp.typeBase.isSome

/-- `GetTypeAtOffset` (lines 116-121): asserts `offset < num_param` and
`HasTypeInformation()` (abort, modelled as `none`), then returns
`this->type[offset]`. -/
def GetTypeAtOffset (h : Heap) (sp : StringParameters) (off : Nat) : Option Nat :=
  if off < sp.num_param then
    match sp.typeBase with
    | some b => some (h.typs.getD (b + off) 0)
    | none => none
  else
    none

/-- `SetParam` (lines 123-127): asserts `n < num_param` (abort, modelled as
`none`), then `this->data[n] = v;`.  `v` is a `uint64`, stored mod `2^64`.
The method assigns no field of `this`, so the instance is returned
unchanged alongside the updated heap. -/
def SetParam (h : Heap) (sp : StringParameters) (n v : Nat) :
    Option (Heap × StringParameters) :=
  if n < sp.num_param then
    some ({ h with vals := h.vals.set (sp.dataBase + n) (v % 2 ^ 64) }, sp)
  else
    none

/-- `GetParam` (lines 129-133): asserts `n < num_param` (abort, modelled as
`none`), then returns `this->data[n]`. -/
def GetParam (h : Heap) (sp : StringParameters) (n : Nat) : Option Nat :=
  if n < sp.num_param then some (h.vals.getD (sp.dataBase + n) 0) else none

/-- `StringBuilder::operator+=(const char)` (lines 180-184):
`this->string->push_back(value);`.  The wrapped `std::string` is modelled
as a `List Char`. -/
def pushBack (s : List Char) (c : Char) : List Char :=
  s ++ [c]

/-- `StringBuilder::operator+=(std::string_view)` (lines 191-195):
`*this->string += str;`. -/
def appendView (s : List Char) (t : List Char) : List Char :=
  s ++ t

/-- `StringBuilder::RemoveElementsFromBack` (lines 212-215):
`this->string->erase(this->string->size() - std::min(amount, this->string->size()));`
— erase from that position to the end, i.e. keep the first
`size - min(amount, size)` characters. -/
def RemoveElementsFromBack (s : List Char) (amount : Nat) : List Char :=
  s.take (s.length - min amount s.length)

/-- `StringBuilder::CurrentIndex` (lines 221-224): `return this->string->size();`. -/
def CurrentIndex (s : List Char) : Nat :=
  s.length

/-! ### Helper lemmas -/

lemma uintSub_of_le {a b : Nat} (hba : b ≤ a) (ha : a < 2 ^ 32) :
    uintSub a b = a - b := by
  unfold uintSub
  have h1 : (0 : Int) ≤ (a : Int) - (b : Int) := by
    omega
  have h2 : (a : Int) - (b : Int) < 2 ^ 32 := by
    omega
  rw [Int.emod_eq_of_lt h1 h2]
  omega

lemma getInt32_some (h : Heap) (sp : StringParameters)
    (hlt : sp.offset < sp.num_param) :
    GetInt32 h sp = some (toInt32 (toInt64 (h.vals.getD (sp.dataBase + sp.offset) 0)),
      { sp with offset := sp.offset + 1 }) := by
  simp [GetInt32, GetInt64, hlt]

lemma getInt32_none (h : Heap) (sp : StringParameters)
    (hge : sp.num_param ≤ sp.offset) :
    GetInt32 h sp = none := by
  simp [GetInt32, GetInt64, Nat.not_lt.mpr hge]

lemma getInt32Calls_ok (h : Heap) :
    ∀ (n : Nat) (sp : StringParameters), sp.offset + n ≤ sp.num_param →
      GetInt32Calls h sp n = some { sp with offset := sp.offset + n } := by
  intro n
  induction n with
  | zero =>
    intro sp _
    simp [GetInt32Calls]
  | succ m ih =>
    intro sp hle
    have hlt : sp.offset < sp.num_param := by omega
    have hstep := getInt32_some h sp hlt
    have hrec := ih { sp with offset := sp.offset + 1 } (by simp; omega)
    simp only [GetInt32Calls, hstep, hrec]
    congr 2
    omega

lemma getInt32Calls_fail (h : Heap) :
    ∀ (m : Nat) (sp : StringParameters), sp.offset + m = sp.num_param →
      GetInt32Calls h sp (m + 1) = none := by
  intro m
  induction m with
  | zero =>
    intro sp heq
    have : GetInt32 h sp = none := getInt32_none h sp (by omega)
    simp [GetInt32Calls, this]
  | succ k ih =>
    intro sp heq
    have hlt : sp.offset < sp.num_param := by omega
    have hstep := getInt32_some h sp hlt
    have hrec := ih { sp with offset := sp.offset + 1 } (by simp; omega)
    simp only [GetInt32Calls, hstep]
    exact hrec

/-! ### Claims -/

/-- C4: on a list constructed with `n` slots, the first `n` calls to
`GetInt32` all succeed, and the `(n+1)`-th call fails (the cursor has
reached the length). -/
theorem next_calls_fill_then_fail (h : Heap) (d n : Nat) (t : Option Nat) :
    (GetInt32Calls h (ofArrays d n t) n).isSome = true ∧
    GetInt32Calls h (ofArrays d n t) (n + 1) = none := by
  constructor
  · rw [getInt32Calls_ok h n (ofArrays d n t) (by simp [ofArrays])]
    rfl
  · exact getInt32Calls_fail h n (ofArrays d n t) (by simp [ofArrays])

/-- C5: `GetDataLeft` returns `length - cursor` (whenever the cursor has not
passed the length, which every operation maintains) and mutates no state;
after `k` successful reads on an `n`-slot list it equals `n - k`. -/
theorem remaining_count_after_reads (h : Heap) (d n k : Nat) (t : Option Nat)
    (hk : k ≤ n) (hn : n < 2 ^ 32) :
    (GetInt32Calls h (ofArrays d n t) k).map GetDataLeft = some (n - k) ∧
    ∀ sp : StringParameters, sp.offset ≤ sp.num_param → sp.num_param < 2 ^ 32 →
      GetDataLeft sp = sp.num_param - sp.offset := by
  constructor
  · rw [getInt32Calls_ok h k (ofArrays d n t) (by simp [ofArrays]; omega)]
    simp [ofArrays, GetDataLeft, uintSub_of_le hk hn]
  · intro sp hle hlt
    exact uintSub_of_le hle hlt

/-- C5 witness: concrete instance, 2 reads on a 3-slot list leave 1. -/
theorem remaining_count_after_reads_witness :
    (GetInt32Calls ⟨[10, 20, 30], []⟩ (ofArrays 0 3 none) 2).map GetDataLeft
        = some (3 - 2) ∧
    ∀ sp : StringParameters, sp.offset ≤ sp.num_param → sp.num_param < 2 ^ 32 →
      GetDataLeft sp = sp.num_param - sp.offset := by
  exact remaining_count_after_reads ⟨[10, 20, 30], []⟩ 0 3 2 none (by decide) (by decide)

/-- C1: for `k` within the parent's remaining slots, `subView k` leaves the
parent's cursor unchanged, and destroying the child after it has read
exactly `j ≤ k` values advances the parent's cursor by exactly `k` (the
child's window size), not by `j`. -/
theorem subview_advances_parent_by_size (h : Heap) (p : StringParameters)
    (k j : Nat) (hk : k ≤ GetDataLeft p) (hj : j ≤ k)
    (hw : p.offset + k < 2 ^ 32) :
    (subView p k).map (fun cp => cp.2.offset) = some p.offset ∧
    (subView p k).bind (fun cp =>
        (GetInt32Calls h cp.1 j).map (fun c => (destructor c cp.2).offset))
      = some (p.offset + k) := by
  have hsv : subView p k = some
      ({ parentRef := true, dataBase := p.dataBase + p.offset,
         typeBase := p.typeBase.map (fun b => b + p.offset),
         offset := 0, num_param := k }, p) := by
    simp [subView, hk]
  refine ⟨by simp [hsv], ?_⟩
  rw [hsv]
  have hcalls := getInt32Calls_ok h j
      { parentRef := true, dataBase := p.dataBase + p.offset,
        typeBase := p.typeBase.map (fun b => b + p.offset),
        offset := 0, num_param := k } (by simpa using hj)
  simp [hcalls, destructor]
  omega

/-- C1 witness: 3-slot parent, child of size 2 reads 1 value; the parent
cursor ends at 2. -/
theorem subview_advances_parent_by_size_witness :
    (subView (ofArrays 0 3 none) 2).map (fun cp => cp.2.offset) = some 0 ∧
    (subView (ofArrays 0 3 none) 2).bind (fun cp =>
        (GetInt32Calls ⟨[7, 8, 9], []⟩ cp.1 1).map
          (fun c => (destructor c cp.2).offset))
      = some (0 + 2) := by
  exact subview_advances_parent_by_size ⟨[7, 8, 9], []⟩ (ofArrays 0 3 none) 2 1
    (by decide) (by decide) (by decide)

/-- C2 counterexample: a child carved with size 2 from a fresh 3-slot list
that reads exactly 1 value has final cursor 1, yet its destruction sets the
parent's cursor to 2 — not to `0 + 1` as the claim (advance by the child's
final cursor value) predicts. -/
theorem destructor_cursor_report_cex :
    subView (ofArrays 0 3 none) 2 =
      some (⟨true, 0, none, 0, 2⟩, ofArrays 0 3 none) ∧
    GetInt32Calls ⟨[5, 6, 7], []⟩ ⟨true, 0, none, 0, 2⟩ 1 =
      some ⟨true, 0, none, 1, 2⟩ ∧
    (destructor ⟨true, 0, none, 1, 2⟩ (ofArrays 0 3 none)).offset = 2 ∧
    (ofArrays 0 3 none).offset +
      (⟨true, 0, none, 1, 2⟩ : StringParameters).offset = 1 ∧
    (2 : Nat) ≠ 1 := by
  refine ⟨by decide, ?_, by decide, by decide, by decide⟩
  decide

/-- C2 amended: on destruction of a child view the amount added to the
parent's cursor equals the child's window size `num_param` (the size
requested at construction), regardless of how many of its slots the child
actually consumed. -/
theorem destructor_adds_window_size (h : Heap) (p : StringParameters)
    (k j : Nat) (hk : k ≤ GetDataLeft p) (hj : j ≤ k)
    (hw : p.offset + k < 2 ^ 32) :
    (subView p k).bind (fun cp =>
        (GetInt32Calls h cp.1 j).map
          (fun c => ((destructor c cp.2).offset - cp.2.offset, c.offset, c.num_param)))
      = some (k, j, k) := by
  have hsv : subView p k = some
      ({ parentRef := true, dataBase := p.dataBase + p.offset,
         typeBase := p.typeBase.map (fun b => b + p.offset),
         offset := 0, num_param := k }, p) := by
    simp [subView, hk]
  rw [hsv]
  have hcalls := getInt32Calls_ok h j
      { parentRef := true, dataBase := p.dataBase + p.offset,
        typeBase := p.typeBase.map (fun b => b + p.offset),
        offset := 0, num_param := k } (by simpa using hj)
  simp [hcalls, destructor]
  omega

/-- C2 amended witness: child of size 3 over a 4-slot parent reads 1 value;
destruction adds 3 (its window size) to the parent's cursor while its own
final cursor is 1. -/
theorem destructor_adds_window_size_witness :
    (subView (ofArrays 0 4 none) 3).bind (fun cp =>
        (GetInt32Calls ⟨[1, 2, 3, 4], []⟩ cp.1 1).map
          (fun c => ((destructor c cp.2).offset - cp.2.offset, c.offset, c.num_param)))
      = some (3, 1, 3) := by
  exact destructor_adds_window_size ⟨[1, 2, 3, 4], []⟩ (ofArrays 0 4 none) 3 1
    (by decide) (by decide) (by decide)

/-- C3: constructing a child view of size `k` strictly greater than
`GetDataLeft` hits the assert and aborts: no child is produced and no
post-state of the parent (nor of the heap, which `subView` never touches)
escapes. -/
theorem subview_oversize_fails (p : StringParameters) (k : Nat)
    (hk : GetDataLeft p < k) :
    subView p k = none := by
  simp [subView, Nat.not_le.mpr hk]

/-- C3 witness: requesting a 5-slot view of a 1-slot list fails. -/
theorem subview_oversize_fails_witness :
    subView (ofArrays 0 1 none) 5 = none := by
  exact subview_oversize_fails (ofArrays 0 1 none) 5 (by decide)

/-- C6: `RemoveElementsFromBack amount` removes exactly the last
`min(amount, length)` characters (what remains is an initial segment which,
re-joined with those last characters, gives the original buffer) and never
fails; concretely, after building "abc" it turns 2-removal into "a", and a
100-removal of a 3-character buffer empties it. -/
theorem truncate_last_clamps :
    (∀ (s : List Char) (amount : Nat),
      (RemoveElementsFromBack s amount).length = s.length - min amount s.length ∧
      RemoveElementsFromBack s amount ++ s.drop (s.length - min amount s.length) = s) ∧
    RemoveElementsFromBack (appendView [] ['a', 'b', 'c']) 2 = ['a'] ∧
    RemoveElementsFromBack ['x', 'y', 'z'] 100 = [] := by
  refine ⟨fun s amount => ⟨?_, ?_⟩, by decide, by decide⟩
  · simp [RemoveElementsFromBack]
  · exact List.take_append_drop _ s

/-- C7: a list built by the fixed-size signed-array constructor carries no
type information, and `GetTypeAtOffset` fails exactly when type information
is absent or the offset is at or past the length. -/
theorem type_info_absent_iff (d n : Nat) :
    HasTypeInformation (ofInt64Array d n) = false ∧
    ∀ (h : Heap) (sp : StringParameters) (off : Nat),
      GetTypeAtOffset h sp off = none ↔
        (HasTypeInformation sp = false ∨ sp.num_param ≤ off) := by
  refine ⟨rfl, fun h sp off => ?_⟩
  unfold GetTypeAtOffset HasTypeInformation
  rcases sp.typeBase with _ | b
  · by_cases hlt : off < sp.num_param
    · simp [hlt]
    · simp [hlt]
  · by_cases hlt : off < sp.num_param
    · simp [hlt]
    · simp [hlt]
      omega

/-- C8: appending a string one character at a time (repeated `push_back`)
produces the same buffer as appending it in one bulk `operator+=` call,
from any starting buffer. -/
theorem append_chars_eq_bulk (init s : List Char) :
    s.foldl pushBack init = appendView init s := by
  induction s generalizing init with
  | nil => simp [appendView]
  | cons c cs ih =>
    simp only [List.foldl_cons, ih]
    simp [pushBack, appendView]

/-- C9: for `n < length`, `SetParam n v` succeeds, leaves the instance
(cursor, length, pointers) unchanged, makes `GetParam n` return `v`, leaves
every other slot of the window unchanged, and never touches the type
cells. -/
theorem set_param_frame (h : Heap) (sp : StringParameters) (n v : Nat)
    (hn : n < sp.num_param) (hv : v < 2 ^ 64)
    (hb : sp.dataBase + sp.num_param ≤ h.vals.length) :
    ∃ h' sp', SetParam h sp n v = some (h', sp') ∧
      sp' = sp ∧
      GetParam h' sp' n = some v ∧
      (∀ m, m < sp.num_param → m ≠ n → GetParam h' sp' m = GetParam h sp m) ∧
      h'.typs = h.typs := by
  refine ⟨{ h with vals := h.vals.set (sp.dataBase + n) (v % 2 ^ 64) }, sp,
    by simp [SetParam, hn], rfl, ?_, ?_, rfl⟩
  · have hlen : sp.dataBase + n < h.vals.length := by omega
    simp only [GetParam, if_pos hn]
    rw [List.getD_eq_getElem?_getD]
    simp [List.getElem?_set, hlen, Nat.mod_eq_of_lt hv]
    omega
  · intro m hm hne
    have hidx : sp.dataBase + m ≠ sp.dataBase + n := by omega
    simp only [GetParam, if_pos hm]
    rw [List.getD_eq_getElem?_getD, List.getD_eq_getElem?_getD]
    simp [List.getElem?_set, Ne.symm hidx]

/-- C9 witness: on a 2-slot list over `[0, 0]`, writing 7 at slot 0 is read
back and slot 1 is untouched. -/
theorem set_param_frame_witness :
    ∃ h' sp', SetParam ⟨[0, 0], []⟩ (ofArrays 0 2 none) 0 7 = some (h', sp') ∧
      sp' = ofArrays 0 2 none ∧
      GetParam h' sp' 0 = some 7 ∧
      (∀ m, m < (ofArrays 0 2 none).num_param → m ≠ 0 →
        GetParam h' sp' m = GetParam ⟨[0, 0], []⟩ (ofArrays 0 2 none) m) ∧
      h'.typs = (⟨[0, 0], []⟩ : Heap).typs := by
  exact set_param_frame ⟨[0, 0], []⟩ (ofArrays 0 2 none) 0 7
    (by decide) (by decide) (by decide)

/-- C10: `GetRemainingParameters` returns a view whose window is exactly
the unconsumed tail — data pointer at the cursor, length `GetDataLeft`,
cursor 0, same presence of type information — with no parent back-pointer,
so destroying it leaves the originating list unchanged. -/
theorem remaining_parameters_no_backref (sp : StringParameters) :
    (GetRemainingParameters sp).dataBase = sp.dataBase + sp.offset ∧
    (GetRemainingParameters sp).num_param = GetDataLeft sp ∧
    (GetRemainingParameters sp).offset = 0 ∧
    HasTypeInformation (GetRemainingParameters sp) = HasTypeInformation sp ∧
    (GetRemainingParameters sp).parentRef = false ∧
    destructor (GetRemainingParameters sp) sp = sp := by
  refine ⟨rfl, rfl, rfl, ?_, rfl, ?_⟩
  · simp [GetRemainingParameters, ofArrays, HasTypeInformation]
  · simp [destructor, GetRemainingParameters, ofArrays]
